import Mathlib

/-!
Verification development for the aerugo RTOS core.

The definitions below are a shallow embedding of the core scheduler code:
`src/executor.rs`, `src/tasklet.rs`, `src/message_queue.rs`,
`src/cyclic_execution.rs` and `src/event.rs`.  Machine integers
(`u32` event ids, `u64` instant ticks) are modelled as `Nat`: none of the
verified operations performs arithmetic that can overflow a 64-bit counter
within the modelled behaviours, and the source uses saturating/monotonic
time arithmetic.  A Rust `Mutex<X>` field with `lock(|x| f(x))` access is
modelled as a plain field of type `X` (the lock only provides mutual
exclusion, which is implicit in the sequential embedding).  Fallible
operations return `Except` together with the post-state, matching the
source's in-place mutation followed by a `Result` return.

Tasklets are identified by `TaskletId` (an index into the system's tasklet
registry); a Rust `TaskletPtr` is modelled as such an index.
-/

/-- Identifier of a tasklet: its index in the system tasklet registry.
Models the `TaskletPtr` reference type. -/
abbrev TaskletId := Nat

/-- Identifier of an event (`pub type EventId = u32` in `event.rs`). -/
abbrev EventId := Nat

/-- Status of a task, from `task.rs` (`TaskStatus`): the three states used
by `executor.rs` and `tasklet.rs`. -/
inductive TaskStatus where
  | Sleeping
  | Waiting
  | Working
deriving Repr, DecidableEq

/-- Modelled from the spec: the runtime error taxonomy (`error.rs` is not
part of the provided sources; the spec lists the exhaustive variants
`DataQueueFull`, `ExecutorTaskletQueueFull`, `EventSetFull`,
`SystemTimeNotAvailable`, and `executor.rs` / `message_queue.rs` name the
first two). -/
inductive RuntimeError where
  | DataQueueFull
  | ExecutorTaskletQueueFull
  | EventSetFull
  | SystemTimeNotAvailable
deriving Repr, DecidableEq

/-- Modelled from the spec: the init error taxonomy (`error.rs` is not part
of the provided sources; the spec lists the exhaustive variants). -/
inductive InitError where
  | TaskletAlreadyCreated
  | MessageQueueAlreadyCreated
  | EventAlreadyCreated
  | BooleanConditionAlreadyCreated
  | SubscriptionListFull
  | CyclicExecutionListFull
  | EventSetListFull
  | DataReceiverAlreadySubscribed
deriving Repr, DecidableEq

/-- The `DataProvider<T>` trait object interface (`data_provider.rs`):
`data_ready(&self) -> bool` and `get_data(&self) -> Option<T>`.  A provider
value of type `P` carries its own state; `get_data` may consume data, so it
returns the yielded value together with the provider post-state.  (The
snapshot's `message_queue.rs` spells the readiness method `data_waiting`;
`tasklet.rs` calls it `data_ready` — the same trait method across snapshot
revisions.) -/
structure DataProvider (P : Type u) (T : Type v) where
  data_ready : P → Bool
  get_data : P → Option T × P

/-- Tasklet creation configuration (`tasklet_config.rs`): carries the name;
the default name is asserted by the unit tests in `tasklet.rs`. -/
structure TaskletConfig where
  name : String := "MISSING_TASKLET_NAME"
deriving Repr, DecidableEq

/-- The `Tasklet<T, C>` structure from `tasklet.rs`.  `P` is the state type
of the bound data provider (the source stores `&'static dyn
DataProvider<T>`; the embedding stores the provider state inline and takes
the `DataProvider` method table as an explicit argument where needed).
`step_fn : fn(T, &mut C)` becomes `T → C → C`.  `last_execution_time` is a
`TimerInstantU64<1_000_000>` tick count. -/
structure Tasklet (P : Type u) (T : Type v) (C : Type w) where
  name : String
  status : TaskStatus
  last_execution_time : Nat
  step_fn : T → C → C
  context : C
  data_provider : Option P

namespace Tasklet

/-- Constructor `Tasklet::new` (`tasklet.rs` lines 53-62): status starts
`Sleeping`, last execution time at 0 ticks, no data provider. -/
def new (config : TaskletConfig) (step_fn : T → C → C) (context : C) :
    Tasklet P T C where
  name := config.name
  status := TaskStatus.Sleeping
  last_execution_time := 0
  step_fn := step_fn
  context := context
  data_provider := none

/-- Accessor `get_status` (`tasklet.rs`). -/
def get_status (t : Tasklet P T C) : TaskStatus := t.status

/-- Mutator `set_status` (`tasklet.rs`). -/
def set_status (t : Tasklet P T C) (status : TaskStatus) : Tasklet P T C :=
  { t with status := status }

/-- Accessor `get_last_execution_time` (`tasklet.rs`). -/
def get_last_execution_time (t : Tasklet P T C) : Nat :=
  t.last_execution_time

/-- Mutator `set_last_execution_time` (`tasklet.rs`). -/
def set_last_execution_time (t : Tasklet P T C) (time : Nat) :
    Tasklet P T C :=
  { t with last_execution_time := time }

/-- Method `has_work` (`tasklet.rs` lines 86-93): with a bound provider,
report the provider's readiness; without one, report `false`. -/
def has_work (dp : DataProvider P T) (t : Tasklet P T C) : Bool :=
  match t.data_provider with
  | some p => dp.data_ready p
  | none => false

/-- Method `execute` (`tasklet.rs` lines 95-110): without a provider,
return immediately; otherwise poll `get_data`, and only when it yields a
value run the step function on that value and the mutable context. -/
def execute (dp : DataProvider P T) (t : Tasklet P T C) : Tasklet P T C :=
  match t.data_provider with
  | none => t
  | some p =>
    match dp.get_data p with
    | (some val, p2) =>
      { t with data_provider := some p2, context := t.step_fn val t.context }
    | (none, p2) => { t with data_provider := some p2 }

/-- Method `subscribe` of the `DataReceiver<T>` impl (`tasklet.rs` lines
113-121): unconditionally stores the given provider and returns `Ok(())`. -/
def subscribe (t : Tasklet P T C) (data_provider : P) :
    Except InitError (Tasklet P T C) :=
  Except.ok { t with data_provider := some data_provider }

end Tasklet

/-- Backing storage of a message queue (`QueueData<T, N>` from
`message_queue_storage.rs`, a bounded FIFO; the storage module is not part
of the provided sources, but its interface — `enqueue` failing when full,
`dequeue` returning `Option`, `is_empty` — is fixed by its use in
`message_queue.rs`).  The element list holds the oldest element at the
head; at most `N` elements are ever stored. -/
structure QueueData (T : Type u) (N : Nat) where
  elems : List T
deriving Repr, DecidableEq

namespace QueueData

/-- Empty queue storage. -/
def empty (T : Type u) (N : Nat) : QueueData T N where
  elems := []

/-- Bounded enqueue: appends at the tail; fails (returning the rejected
element, as `heapless` does) when the queue already holds `N` elements. -/
def enqueue (q : QueueData T N) (data : T) : Except T (QueueData T N) :=
  if q.elems.length < N then Except.ok { elems := q.elems ++ [data] }
  else Except.error data

/-- Dequeue: removes and returns the head element, `none` when empty. -/
def dequeue (q : QueueData T N) : Option T × QueueData T N :=
  match q.elems with
  | [] => (none, q)
  | x :: xs => (some x, { elems := xs })

/-- Emptiness check. -/
def is_empty (q : QueueData T N) : Bool := q.elems.isEmpty

end QueueData

/-- The `MessageQueue<T, N>` structure (`message_queue.rs` lines 27-32):
the bounded data storage plus the list of registered (subscribed)
tasklets. -/
structure MessageQueue (T : Type u) (N : Nat) where
  data_queue : QueueData T N
  registered_tasklets : List TaskletId

namespace MessageQueue

/-- Method `send_data` (`message_queue.rs` lines 69-78): enqueue under the
lock; a full queue yields `RuntimeError::DataQueueFull` and returns before
`wake_tasklets`; on success every registered tasklet is woken.  The third
component is the trace of `Aerugo::wake_tasklet` calls made. -/
def send_data (mq : MessageQueue T N) (data : T) :
    Except RuntimeError Unit × MessageQueue T N × List TaskletId :=
  match mq.data_queue.enqueue data with
  | Except.error _ => (Except.error RuntimeError.DataQueueFull, mq, [])
  | Except.ok q2 =>
    (Except.ok (), { mq with data_queue := q2 }, mq.registered_tasklets)

/-- Method `clear` (`message_queue.rs` lines 81-83): dequeues until empty,
waking nobody. -/
def clear (mq : MessageQueue T N) : MessageQueue T N :=
  { mq with data_queue := { elems := [] } }

/-- Method `get_data` of the `DataProvider` impl (`message_queue.rs` lines
100-102): dequeues the next element. -/
def get_data (mq : MessageQueue T N) : Option T × MessageQueue T N :=
  match mq.data_queue.dequeue with
  | (v, q2) => (v, { mq with data_queue := q2 })

/-- Method `data_waiting` of the `DataProvider` impl (`message_queue.rs`
lines 105-107): true iff the queue is non-empty. -/
def data_waiting (mq : MessageQueue T N) : Bool :=
  !mq.data_queue.is_empty

end MessageQueue

/-- The `DataProvider` method table of `MessageQueue<T, N>`
(`message_queue.rs` lines 93-108). -/
def messageQueueProvider (T : Type u) (N : Nat) :
    DataProvider (MessageQueue T N) T where
  data_ready := MessageQueue.data_waiting
  get_data := MessageQueue.get_data

/-- One operation of a send/receive interleaving on a message queue. -/
inductive QueueOp (T : Type u) where
  | send (v : T)
  | recv
deriving Repr, DecidableEq

/-- Runs a sequence of queue operations.  Returns the final queue, the
list of values whose `send_data` succeeded (in send order) and the list of
values yielded by `get_data` (in receive order). -/
def runQueueOps (mq : MessageQueue T N) :
    List (QueueOp T) → MessageQueue T N × List T × List T
  | [] => (mq, [], [])
  | QueueOp.send v :: ops =>
    let s := mq.send_data v
    let r := runQueueOps s.2.1 ops
    match s.1 with
    | Except.ok _ => (r.1, v :: r.2.1, r.2.2)
    | Except.error _ => r
  | QueueOp.recv :: ops =>
    let g := mq.get_data
    let r := runQueueOps g.2 ops
    match g.1 with
    | some v => (r.1, r.2.1, v :: r.2.2)
    | none => r

/-- The `CyclicExecution` record (`cyclic_execution.rs` lines 12-19):
next-execution instant, optional period, target tasklet.  Instants and
durations are tick counts. -/
structure CyclicExecution where
  next_execution_time : Nat
  period : Option Nat
  tasklet : TaskletId
deriving Repr, DecidableEq

namespace CyclicExecution

/-- Constructor `CyclicExecution::new` (`cyclic_execution.rs` lines 28-44):
the next-execution instant starts at the offset when one is given, at tick
0 otherwise. -/
def new (tasklet : TaskletId) (period : Option Nat) (offset : Option Nat) :
    CyclicExecution where
  next_execution_time :=
    match offset with
    | some o => o
    | none => 0
  period := period
  tasklet := tasklet

end CyclicExecution

/-- The catch-up loop of `wake_if_should_execute` (`cyclic_execution.rs`
lines 56-60): `while current_time >= *next { *next += period }`.  The
source loop diverges for a zero period; the embedding guards the recursion
on `0 < period` and is exercised only at positive periods. -/
def advanceNext (current_time period : Nat) (next : Nat) : Nat :=
  if _h : 0 < period ∧ next ≤ current_time then
    advanceNext current_time period (next + period)
  else next
termination_by current_time + 1 - next
decreasing_by omega

namespace CyclicExecution

/-- Method `wake_if_should_execute` (`cyclic_execution.rs` lines 50-65):
with a period, wake the tasklet when the next-execution instant has been
reached and advance it past `current_time` by whole periods; without a
period, wake unconditionally.  The second component is the trace of
`Aerugo::wake_tasklet` calls made. -/
def wake_if_should_execute (ce : CyclicExecution) (current_time : Nat) :
    CyclicExecution × List TaskletId :=
  match ce.period with
  | some period =>
    if current_time ≥ ce.next_execution_time then
      ({ ce with
          next_execution_time :=
            advanceNext current_time period ce.next_execution_time },
        [ce.tasklet])
    else (ce, [])
  | none => (ce, [ce.tasklet])

end CyclicExecution

/-- The `DataProvider` method table of `CyclicExecution`
(`cyclic_execution.rs` lines 68-82): `get_data` yields `Some(())`
unconditionally, `data_waiting` is `false`. -/
def cyclicExecutionProvider : DataProvider CyclicExecution Unit where
  data_ready := fun _ => false
  get_data := fun ce => (some (), ce)

/-- Modelled from the spec: the `EventSet` structure (`event_set.rs` is not
part of the provided sources).  Per the spec it tracks the pending event
ids for one owning tasklet in bounded storage (capacity `capacity`), and
activating an event can fail with the runtime kind `EventSetFull`. -/
structure EventSet where
  pending : List EventId
  capacity : Nat
  target_tasklet : TaskletId
deriving Repr, DecidableEq

namespace EventSet

/-- Modelled from the spec: `EventSet::activate_event` marks the event id
pending in the set (a no-op on the stored ids when the id is already
pending) and wakes the owning tasklet; storing a new id into a full set
fails with `EventSetFull`.  The second component of a successful result is
the trace of `Aerugo::wake_tasklet` calls made. -/
def activate_event (es : EventSet) (event_id : EventId) :
    Except RuntimeError (EventSet × List TaskletId) :=
  if event_id ∈ es.pending then Except.ok (es, [es.target_tasklet])
  else if es.pending.length < es.capacity then
    Except.ok
      ({ es with pending := es.pending ++ [event_id] }, [es.target_tasklet])
  else Except.error RuntimeError.EventSetFull

end EventSet

/-- The `Event` structure (`event.rs` lines 23-28): its id and the list of
event sets it has been registered into. -/
structure Event where
  id : EventId
  sets : List EventSet
deriving Repr, DecidableEq

/-- Outcome of `Event::emit`: either normal completion (with the updated
sets and the trace of woken tasklets) or a panic raised by the `expect`
call in the source. -/
inductive EmitResult where
  | ok (e : Event) (woken : List TaskletId)
  | panicked (msg : String)
deriving Repr, DecidableEq

/-- Iteration of `Event::emit` over the subscribed sets: activates the
event in each set in order, accumulating updated sets and woken tasklets;
the first activation error triggers the source's
`.expect("Failed to activate an event")`, which panics. -/
def emitGo (id : EventId) (done : List EventSet) (woken : List TaskletId) :
    List EventSet → Except String (List EventSet × List TaskletId)
  | [] => Except.ok (done, woken)
  | es :: rest =>
    match es.activate_event id with
    | Except.ok (es2, w) => emitGo id (done ++ [es2]) (woken ++ w) rest
    | Except.error _ => Except.error "Failed to activate an event"

namespace Event

/-- Method `emit` (`event.rs` lines 62-72): activates this event's id in
every subscribed set; an activation failure is not returned to the caller —
the source unwraps it with `expect`, i.e. panics. -/
def emit (e : Event) : EmitResult :=
  match emitGo e.id [] [] e.sets with
  | Except.ok (sets2, woken) => EmitResult.ok { e with sets := sets2 } woken
  | Except.error msg => EmitResult.panicked msg

end Event

/-- Registry entry of the system: one tasklet plus its scheduling
priority.  Modelled from the spec: the priority is carried by the
`TaskletPtr` ordering used by the executor's max-heap (`tasklet_ptr.rs` /
`tasklet_vtable.rs` are not part of the provided sources; the spec fixes
"max-heap keyed by priority, higher = more urgent"). -/
structure SysTasklet (P : Type u) (T : Type v) (C : Type w) where
  tasklet : Tasklet P T C
  priority : Nat

/-- State touched by `Executor` (`executor.rs` lines 15-18 plus the
`AERUGO` collaborators it calls): the tasklet registry (its length is
`Aerugo::TASKLET_COUNT`, which is also the heap capacity), the contents of
the `tasklet_queue` binary heap, and the current system time
(`AERUGO.get_system_time()`). -/
structure ExecutorState (P : Type u) (T : Type v) (C : Type w) where
  tasklets : List (SysTasklet P T C)
  tasklet_queue : List TaskletId
  system_time : Nat

namespace Executor

/-- Priority of a registered tasklet (0 for an id outside the registry;
theorems only use ids inside it). -/
def prio (s : ExecutorState P T C) (i : TaskletId) : Nat :=
  match s.tasklets[i]? with
  | some st => st.priority
  | none => 0

/-- Observable behaviour of `BinaryHeap<TaskletPtr, Max, N>::pop`: removes
and returns an element of maximal key.  The heap's internal array layout is
not modelled; among equal keys this model removes the leftmost, where the
source heap's tie order is the unspecified heap order (the spec pins ties
to a stable address-based key). -/
def selectMax (key : TaskletId → Nat) :
    List TaskletId → Option (TaskletId × List TaskletId)
  | [] => none
  | x :: xs =>
    match selectMax key xs with
    | none => some (x, [])
    | some (m, rest) =>
      if key m > key x then some (m, x :: rest) else some (x, xs)

/-- Update of one registry entry; ids outside the registry leave the state
unchanged (unreachable through the source, where a `TaskletPtr` always
refers to a live tasklet). -/
def updateTasklet (s : ExecutorState P T C) (i : TaskletId)
    (f : SysTasklet P T C → SysTasklet P T C) : ExecutorState P T C :=
  match s.tasklets[i]? with
  | some st => { s with tasklets := s.tasklets.set i (f st) }
  | none => s

/-- Call `tasklet.get_status()` through the pointer. -/
def tasklet_status (s : ExecutorState P T C) (i : TaskletId) :
    Option TaskStatus :=
  (s.tasklets[i]?).map (fun st => st.tasklet.get_status)

/-- Call `tasklet.set_status(status)` through the pointer. -/
def set_status (s : ExecutorState P T C) (i : TaskletId)
    (status : TaskStatus) : ExecutorState P T C :=
  updateTasklet s i (fun st => { st with tasklet := st.tasklet.set_status status })

/-- Call `tasklet.set_last_execution_time(time)` through the pointer. -/
def set_last_exec (s : ExecutorState P T C) (i : TaskletId) (time : Nat) :
    ExecutorState P T C :=
  updateTasklet s i
    (fun st => { st with tasklet := st.tasklet.set_last_execution_time time })

/-- Call `tasklet.has_work()` through the pointer. -/
def tasklet_has_work (dp : DataProvider P T) (s : ExecutorState P T C)
    (i : TaskletId) : Bool :=
  match s.tasklets[i]? with
  | some st => st.tasklet.has_work dp
  | none => false

/-- Call `tasklet.execute()` through the pointer. -/
def execute_tasklet (dp : DataProvider P T) (s : ExecutorState P T C)
    (i : TaskletId) : ExecutorState P T C :=
  updateTasklet s i (fun st => { st with tasklet := st.tasklet.execute dp })

/-- Method `Executor::get_tasklet_for_execution` (`executor.rs` lines
114-116): pop the queue under the lock. -/
def get_tasklet_for_execution (s : ExecutorState P T C) :
    Option TaskletId × ExecutorState P T C :=
  match selectMax (prio s) s.tasklet_queue with
  | none => (none, s)
  | some (i, rest) => (some i, { s with tasklet_queue := rest })

/-- Method `Executor::add_tasklet_to_queue` (`executor.rs` lines 85-94):
under the lock, first set the tasklet's status to `Waiting`, then push it;
a push onto a full heap (the capacity is `Aerugo::TASKLET_COUNT`, the
registry size) fails with `ExecutorTaskletQueueFull`. -/
def add_tasklet_to_queue (s : ExecutorState P T C) (i : TaskletId) :
    Except RuntimeError Unit × ExecutorState P T C :=
  let s1 := set_status s i TaskStatus.Waiting
  if s1.tasklet_queue.length < s1.tasklets.length then
    (Except.ok (), { s1 with tasklet_queue := s1.tasklet_queue ++ [i] })
  else (Except.error RuntimeError.ExecutorTaskletQueueFull, s1)

/-- Method `Executor::schedule_tasklet` (`executor.rs` lines 45-57): only a
`Sleeping` tasklet is added to the queue (returning `Ok(true)`); any other
status returns `Ok(false)` without touching anything. -/
def schedule_tasklet (s : ExecutorState P T C) (i : TaskletId) :
    Except RuntimeError Bool × ExecutorState P T C :=
  if tasklet_status s i = some TaskStatus.Sleeping then
    match add_tasklet_to_queue s i with
    | (Except.ok _, s2) => (Except.ok true, s2)
    | (Except.error e, s2) => (Except.error e, s2)
  else (Except.ok false, s)

/-- Method `Executor::reschedule_tasklet` (`executor.rs` lines 102-109):
re-queue the tasklet iff it still has work. -/
def reschedule_tasklet (dp : DataProvider P T) (s : ExecutorState P T C)
    (i : TaskletId) : Except RuntimeError Bool × ExecutorState P T C :=
  if tasklet_has_work dp s i then
    match add_tasklet_to_queue s i with
    | (Except.ok _, s2) => (Except.ok true, s2)
    | (Except.error e, s2) => (Except.error e, s2)
  else (Except.ok false, s)

/-- Method `Executor::execute_next_tasklet` (`executor.rs` lines 63-78):
pop the next tasklet; mark it `Working`; run `execute`; record the system
time as its last-execution instant; re-queue it when it still has work,
otherwise mark it `Sleeping`. -/
def execute_next_tasklet (dp : DataProvider P T) (s : ExecutorState P T C) :
    Except RuntimeError Bool × ExecutorState P T C :=
  match get_tasklet_for_execution s with
  | (none, s1) => (Except.ok false, s1)
  | (some i, s1) =>
    let s2 := set_status s1 i TaskStatus.Working
    let s3 := execute_tasklet dp s2 i
    let s4 := set_last_exec s3 i s3.system_time
    match reschedule_tasklet dp s4 i with
    | (Except.ok true, s5) => (Except.ok true, s5)
    | (Except.ok false, s5) => (Except.ok true, set_status s5 i TaskStatus.Sleeping)
    | (Except.error e, s5) => (Except.error e, s5)

end Executor

/-- Concrete tasklet used to witness tasklet-level claims: processes `Nat`
data from a two-slot message queue holding the value 5, accumulating into a
`Nat` context. -/
def witnessTasklet : Tasklet (MessageQueue Nat 2) Nat Nat where
  name := "witness"
  status := TaskStatus.Waiting
  last_execution_time := 0
  step_fn := fun v c => v + c
  context := 10
  data_provider := some { data_queue := { elems := [5] }, registered_tasklets := [] }

/-- C10: a tasklet built by `Tasklet::new` starts `Sleeping`, with
last-execution time 0 ticks and no bound data provider; consequently
`has_work` reports `false` and `execute` returns the tasklet unchanged
(the step function is not invoked and the context is untouched). -/
theorem tasklet_new_initial_state (config : TaskletConfig)
    (step_fn : T → C → C) (context : C) (dp : DataProvider P T) :
    (Tasklet.new config step_fn context : Tasklet P T C).status =
        TaskStatus.Sleeping ∧
    (Tasklet.new config step_fn context : Tasklet P T C).last_execution_time
        = 0 ∧
    (Tasklet.new config step_fn context : Tasklet P T C).data_provider =
        none ∧
    Tasklet.has_work dp (Tasklet.new config step_fn context) = false ∧
    Tasklet.execute dp (Tasklet.new config step_fn context) =
        Tasklet.new config step_fn context := by
  refine ⟨rfl, rfl, rfl, rfl, ?_⟩
  simp [Tasklet.new, Tasklet.execute]

/-- C3 counterexample: on a freshly created tasklet, a first `subscribe`
succeeds and binds provider 1; a second `subscribe` on the same receiver
does not fail with an init error — it succeeds and replaces the bound
provider with provider 2. -/
theorem tasklet_subscribe_twice_succeeds_and_replaces :
    Tasklet.subscribe
        (Tasklet.new { name := "t" } (fun v c => v + c) 0 : Tasklet Nat Nat Nat) 1 =
      Except.ok
        { name := "t", status := TaskStatus.Sleeping, last_execution_time := 0,
          step_fn := fun v c => v + c, context := 0, data_provider := some 1 } ∧
    Tasklet.subscribe
        ({ name := "t", status := TaskStatus.Sleeping, last_execution_time := 0,
           step_fn := fun v c => v + c, context := 0,
           data_provider := some 1 } : Tasklet Nat Nat Nat) 2 =
      Except.ok
        { name := "t", status := TaskStatus.Sleeping, last_execution_time := 0,
          step_fn := fun v c => v + c, context := 0, data_provider := some 2 } :=
  ⟨rfl, rfl⟩

/-- C3 amended: `subscribe` never fails: it stores the given provider
(replacing any previously bound one) and returns `Ok(())`. -/
theorem tasklet_subscribe_always_binds (t : Tasklet P T C)
    (data_provider : P) :
    Tasklet.subscribe t data_provider =
      Except.ok { t with data_provider := some data_provider } := rfl

/-- C4: sending to a message queue of capacity `N` that already holds `N`
elements fails with the runtime error `DataQueueFull`, leaves the queue (and
subscriber list) unchanged, and wakes no subscribed tasklet. -/
theorem message_queue_send_full (mq : MessageQueue T N) (v : T)
    (h : mq.data_queue.elems.length = N) :
    mq.send_data v = (Except.error RuntimeError.DataQueueFull, mq, []) := by
  simp [MessageQueue.send_data, QueueData.enqueue, h]

/-- C4 witness: a capacity-2 queue holding two elements rejects a third
send with `DataQueueFull`, unchanged and waking nobody. -/
theorem message_queue_send_full_witness :
    ({ data_queue := { elems := [1, 2] }, registered_tasklets := [0] } :
        MessageQueue Nat 2).data_queue.elems.length = 2 ∧
    MessageQueue.send_data
        ({ data_queue := { elems := [1, 2] }, registered_tasklets := [0] } :
          MessageQueue Nat 2) 3 =
      (Except.error RuntimeError.DataQueueFull,
        { data_queue := { elems := [1, 2] }, registered_tasklets := [0] }, []) :=
  ⟨rfl, message_queue_send_full
    { data_queue := { elems := [1, 2] }, registered_tasklets := [0] } 3 rfl⟩

/-- C7: `has_work` is true iff a data provider is bound and reports data
ready (no provider means `false`); `execute` runs the step function on the
yielded value and the context exactly when the bound provider yields one,
and otherwise leaves the step function uninvoked and the context untouched. -/
theorem tasklet_has_work_execute_spec (dp : DataProvider P T)
    (t : Tasklet P T C) :
    (t.has_work dp = true ↔
        ∃ p, t.data_provider = some p ∧ dp.data_ready p = true) ∧
    (t.data_provider = none → t.has_work dp = false ∧ t.execute dp = t) ∧
    (∀ p v p2, t.data_provider = some p → dp.get_data p = (some v, p2) →
        t.execute dp =
          { t with data_provider := some p2,
                   context := t.step_fn v t.context }) ∧
    (∀ p p2, t.data_provider = some p → dp.get_data p = (none, p2) →
        t.execute dp = { t with data_provider := some p2 }) := by
  refine ⟨?_, ?_, ?_, ?_⟩
  · constructor
    · intro h
      match hp : t.data_provider with
      | some p =>
        refine ⟨p, rfl, ?_⟩
        simpa [Tasklet.has_work, hp] using h
      | none => simp [Tasklet.has_work, hp] at h
    · rintro ⟨p, hp, hr⟩
      simp [Tasklet.has_work, hp, hr]
  · intro hp
    exact ⟨by simp [Tasklet.has_work, hp], by simp [Tasklet.execute, hp]⟩
  · intro p v p2 hp hg
    simp [Tasklet.execute, hp, hg]
  · intro p p2 hp hg
    simp [Tasklet.execute, hp, hg]

/-- C7 witness: on a concrete tasklet bound to a queue holding the value 5,
`has_work` is true and `execute` consumes 5, runs the step function
(adding it to the context 10) and stores the drained provider. -/
theorem tasklet_has_work_execute_witness :
    Tasklet.has_work (messageQueueProvider Nat 2) witnessTasklet = true ∧
    Tasklet.execute (messageQueueProvider Nat 2) witnessTasklet =
      { witnessTasklet with
          data_provider :=
            some { data_queue := { elems := [] }, registered_tasklets := [] },
          context := witnessTasklet.step_fn 5 witnessTasklet.context } := by
  constructor
  · exact (tasklet_has_work_execute_spec (messageQueueProvider Nat 2)
      witnessTasklet).1.mpr
      ⟨{ data_queue := { elems := [5] }, registered_tasklets := [] }, rfl, rfl⟩
  · exact (tasklet_has_work_execute_spec (messageQueueProvider Nat 2)
      witnessTasklet).2.2.1
      { data_queue := { elems := [5] }, registered_tasklets := [] } 5
      { data_queue := { elems := [] }, registered_tasklets := [] } rfl rfl

/-- Invariant of `runQueueOps`: the values received, followed by what is
left in the queue, are exactly the initial contents followed by the values
successfully sent.  This is the FIFO property of the bounded queue under
`send_data` / `get_data` interleavings. -/
theorem runQueueOps_fifo_invariant (ops : List (QueueOp T))
    (mq : MessageQueue T N) :
    (runQueueOps mq ops).2.2 ++ (runQueueOps mq ops).1.data_queue.elems =
      mq.data_queue.elems ++ (runQueueOps mq ops).2.1 := by
  induction ops generalizing mq with
  | nil => simp [runQueueOps]
  | cons op ops ih =>
    match op with
    | QueueOp.send v =>
      by_cases hfull : mq.data_queue.elems.length < N
      · have h1 : (mq.send_data v).1 = Except.ok () := by
          simp [MessageQueue.send_data, QueueData.enqueue, hfull]
        have h2 : (mq.send_data v).2.1 =
            { mq with data_queue := { elems := mq.data_queue.elems ++ [v] } } := by
          simp [MessageQueue.send_data, QueueData.enqueue, hfull]
        simp only [runQueueOps, h1, h2]
        have := ih { mq with data_queue := { elems := mq.data_queue.elems ++ [v] } }
        simp only at this
        simp [this]
      · have h1 : (mq.send_data v).1 = Except.error RuntimeError.DataQueueFull := by
          simp [MessageQueue.send_data, QueueData.enqueue, hfull]
        have h2 : (mq.send_data v).2.1 = mq := by
          simp [MessageQueue.send_data, QueueData.enqueue, hfull]
        simp only [runQueueOps, h1, h2]
        exact ih mq
    | QueueOp.recv =>
      match helems : mq.data_queue.elems with
      | [] =>
        have h1 : mq.get_data.1 = none := by
          simp [MessageQueue.get_data, QueueData.dequeue, helems]
        have h2 : mq.get_data.2 = mq := by
          simp [MessageQueue.get_data, QueueData.dequeue, helems]
        simp only [runQueueOps, h1, h2]
        simpa [helems] using ih mq
      | x :: xs =>
        have h1 : mq.get_data.1 = some x := by
          simp [MessageQueue.get_data, QueueData.dequeue, helems]
        have h2 : mq.get_data.2 =
            { mq with data_queue := { elems := xs } } := by
          simp [MessageQueue.get_data, QueueData.dequeue, helems]
        simp only [runQueueOps, h1, h2]
        have := ih { mq with data_queue := { elems := xs } }
        simp only at this
        simp [helems, this]

/-- C5: running any interleaving of `send_data` and `get_data` calls from
the empty queue, the values yielded by `get_data` followed by the elements
still queued are exactly the successfully sent values in send order — so
`get_data` yields sent values in exactly FIFO order (the received sequence
is a prefix of the sent sequence); and `get_data` on an empty queue returns
`None` ("no data") and leaves the queue unchanged. -/
theorem message_queue_fifo (ops : List (QueueOp T)) (subs : List TaskletId) :
    (runQueueOps
          ({ data_queue := { elems := [] }, registered_tasklets := subs } :
            MessageQueue T N) ops).2.2 ++
        (runQueueOps
          ({ data_queue := { elems := [] }, registered_tasklets := subs } :
            MessageQueue T N) ops).1.data_queue.elems =
      (runQueueOps
          ({ data_queue := { elems := [] }, registered_tasklets := subs } :
            MessageQueue T N) ops).2.1 ∧
    (∃ rest,
      (runQueueOps
          ({ data_queue := { elems := [] }, registered_tasklets := subs } :
            MessageQueue T N) ops).2.2 ++ rest =
        (runQueueOps
          ({ data_queue := { elems := [] }, registered_tasklets := subs } :
            MessageQueue T N) ops).2.1) ∧
    (∀ mq : MessageQueue T N, mq.data_queue.elems = [] →
        mq.get_data = (none, mq)) := by
  have hinv := runQueueOps_fifo_invariant ops
    ({ data_queue := { elems := [] }, registered_tasklets := subs } :
      MessageQueue T N)
  simp only [List.nil_append] at hinv
  refine ⟨hinv, ⟨_, hinv⟩, ?_⟩
  intro mq hmq
  simp [MessageQueue.get_data, QueueData.dequeue, hmq]

/-- C5 witness: sending 1, 2, 3 into a capacity-2 queue (the third send
fails with a full queue) and receiving three times yields exactly 1 then 2,
in FIFO send order, with the last receive finding no data. -/
theorem message_queue_fifo_witness :
    (runQueueOps
        ({ data_queue := { elems := [] }, registered_tasklets := [] } :
          MessageQueue Nat 2)
        [QueueOp.send 1, QueueOp.send 2, QueueOp.send 3,
          QueueOp.recv, QueueOp.recv, QueueOp.recv]).2.2 = [1, 2] ∧
    (runQueueOps
        ({ data_queue := { elems := [] }, registered_tasklets := [] } :
          MessageQueue Nat 2)
        [QueueOp.send 1, QueueOp.send 2, QueueOp.send 3,
          QueueOp.recv, QueueOp.recv, QueueOp.recv]).2.1 = [1, 2] ∧
    (runQueueOps
        ({ data_queue := { elems := [] }, registered_tasklets := [] } :
          MessageQueue Nat 2)
        [QueueOp.send 1, QueueOp.send 2, QueueOp.send 3,
          QueueOp.recv, QueueOp.recv, QueueOp.recv]).2.2 ++
      (runQueueOps
        ({ data_queue := { elems := [] }, registered_tasklets := [] } :
          MessageQueue Nat 2)
        [QueueOp.send 1, QueueOp.send 2, QueueOp.send 3,
          QueueOp.recv, QueueOp.recv, QueueOp.recv]).1.data_queue.elems =
      (runQueueOps
        ({ data_queue := { elems := [] }, registered_tasklets := [] } :
          MessageQueue Nat 2)
        [QueueOp.send 1, QueueOp.send 2, QueueOp.send 3,
          QueueOp.recv, QueueOp.recv, QueueOp.recv]).2.1 := by
  refine ⟨by rfl, by rfl, ?_⟩
  exact (message_queue_fifo
    [QueueOp.send 1, QueueOp.send 2, QueueOp.send 3,
      QueueOp.recv, QueueOp.recv, QueueOp.recv] []).1

/-- Catch-up termination: with a positive period the advanced
next-execution instant strictly exceeds the current time. -/
theorem advanceNext_gt (current_time period : Nat) (hp : 0 < period) :
    ∀ next, current_time < advanceNext current_time period next := by
  intro next
  induction next using advanceNext.induct current_time period with
  | case1 x h ih =>
    rw [advanceNext, dif_pos h]
    exact ih
  | case2 x h =>
    rw [advanceNext, dif_neg h]
    omega

/-- Catch-up advancement: the next-execution instant advances by a whole
number of periods. -/
theorem advanceNext_multiple (current_time period : Nat) :
    ∀ next, ∃ k, advanceNext current_time period next = next + k * period := by
  intro next
  induction next using advanceNext.induct current_time period with
  | case1 x h ih =>
    obtain ⟨k, hk⟩ := ih
    refine ⟨k + 1, ?_⟩
    rw [advanceNext, dif_pos h, hk]
    ring
  | case2 x h =>
    refine ⟨0, ?_⟩
    rw [advanceNext, dif_neg h]
    omega

/-- Catch-up coalescing: starting at or before the current time, a single
catch-up overshoots the current time by at most one period (all missed
deadlines collapse into this one advancement). -/
theorem advanceNext_le (current_time period : Nat) (hp : 0 < period) :
    ∀ next, next ≤ current_time →
      advanceNext current_time period next ≤ current_time + period := by
  intro next
  induction next using advanceNext.induct current_time period with
  | case1 x h ih =>
    intro hx
    rw [advanceNext, dif_pos h]
    by_cases h2 : x + period ≤ current_time
    · exact ih h2
    · have h3 : ¬(0 < period ∧ x + period ≤ current_time) := by omega
      rw [advanceNext, dif_neg h3]
      omega
  | case2 x h =>
    intro hx
    omega

/-- C6: on a tick at `now`, a cyclic record with positive period `P` whose
deadline has been reached wakes its tasklet exactly once and advances the
next-execution instant by whole multiples of `P` until it strictly exceeds
`now` (overshooting by at most one period, so missed deadlines coalesce);
a record whose deadline is in the future does nothing; a record without a
period wakes its tasklet on every tick. -/
theorem cyclic_execution_tick_spec (ce : CyclicExecution) (now : Nat) :
    (∀ pd, ce.period = some pd → 0 < pd →
      ((ce.next_execution_time ≤ now →
          (ce.wake_if_should_execute now).2 = [ce.tasklet] ∧
          (ce.wake_if_should_execute now).1.period = ce.period ∧
          (ce.wake_if_should_execute now).1.tasklet = ce.tasklet ∧
          (∃ k, (ce.wake_if_should_execute now).1.next_execution_time =
              ce.next_execution_time + k * pd) ∧
          now < (ce.wake_if_should_execute now).1.next_execution_time ∧
          (ce.wake_if_should_execute now).1.next_execution_time ≤
            now + pd) ∧
        (now < ce.next_execution_time →
          ce.wake_if_should_execute now = (ce, [])))) ∧
    (ce.period = none →
      ce.wake_if_should_execute now = (ce, [ce.tasklet])) := by
  constructor
  · intro pd hpd hpos
    constructor
    · intro hdue
      have hcase : ce.wake_if_should_execute now =
          ({ ce with next_execution_time :=
              advanceNext now pd ce.next_execution_time }, [ce.tasklet]) := by
        simp [CyclicExecution.wake_if_should_execute, hpd, hdue]
      rw [hcase]
      refine ⟨rfl, by simp [hpd], rfl, ?_, ?_, ?_⟩
      · exact advanceNext_multiple now pd ce.next_execution_time
      · exact advanceNext_gt now pd hpos ce.next_execution_time
      · exact advanceNext_le now pd hpos ce.next_execution_time hdue
    · intro hfuture
      have hc : ¬(now ≥ ce.next_execution_time) := by omega
      simp [CyclicExecution.wake_if_should_execute, hpd, hc]
  · intro hnone
    simp [CyclicExecution.wake_if_should_execute, hnone]

/-- C6 witness: a record with period 100, tasklet id 7 and next execution
at 0, ticked at time 450, wakes tasklet 7 exactly once, advancing the
deadline past 450 but no further than 550 — one wake despite four missed
periods; the same record with deadline 500 ticked at time 30 does nothing;
and a period-free record wakes on every tick. -/
theorem cyclic_execution_tick_witness :
    (({ next_execution_time := 0, period := some 100, tasklet := 7 } :
        CyclicExecution).wake_if_should_execute 450).2 = [7] ∧
    450 < (({ next_execution_time := 0, period := some 100, tasklet := 7 } :
        CyclicExecution).wake_if_should_execute 450).1.next_execution_time ∧
    (({ next_execution_time := 0, period := some 100, tasklet := 7 } :
        CyclicExecution).wake_if_should_execute
          450).1.next_execution_time ≤ 550 ∧
    ({ next_execution_time := 500, period := some 100, tasklet := 7 } :
        CyclicExecution).wake_if_should_execute 30 =
      ({ next_execution_time := 500, period := some 100, tasklet := 7 }, []) ∧
    ({ next_execution_time := 500, period := none, tasklet := 7 } :
        CyclicExecution).wake_if_should_execute 30 =
      ({ next_execution_time := 500, period := none, tasklet := 7 }, [7]) := by
  have h1 := (cyclic_execution_tick_spec
    { next_execution_time := 0, period := some 100, tasklet := 7 } 450).1
    100 rfl (by decide)
  have h2 := (cyclic_execution_tick_spec
    { next_execution_time := 500, period := some 100, tasklet := 7 } 30).1
    100 rfl (by decide)
  have h3 := (cyclic_execution_tick_spec
    { next_execution_time := 500, period := none, tasklet := 7 } 30).2 rfl
  exact ⟨(h1.1 (by decide)).1, (h1.1 (by decide)).2.2.2.2.1,
    (h1.1 (by decide)).2.2.2.2.2, h2.2 (by decide), h3⟩

/-- Activation success: a set that already has the id pending, or that has
room for it, activates successfully, keeps its owner and capacity, ends
with the id pending, and wakes exactly its owning tasklet. -/
theorem activate_event_ok (es : EventSet) (id : EventId)
    (h : id ∈ es.pending ∨ es.pending.length < es.capacity) :
    ∃ es2, es.activate_event id = Except.ok (es2, [es.target_tasklet]) ∧
      id ∈ es2.pending ∧ es2.target_tasklet = es.target_tasklet ∧
      es2.capacity = es.capacity := by
  by_cases hmem : id ∈ es.pending
  · exact ⟨es, by simp [EventSet.activate_event, hmem], hmem, rfl, rfl⟩
  · have hroom : es.pending.length < es.capacity := by tauto
    refine ⟨{ es with pending := es.pending ++ [id] }, ?_, ?_, rfl, rfl⟩
    · simp [EventSet.activate_event, hmem, hroom]
    · simp

/-- Activation failure: a set without the id pending and without room
fails with the runtime kind `EventSetFull`. -/
theorem activate_event_fail (es : EventSet) (id : EventId)
    (hmem : id ∉ es.pending) (hfull : es.capacity ≤ es.pending.length) :
    es.activate_event id = Except.error RuntimeError.EventSetFull := by
  have hroom : ¬es.pending.length < es.capacity := by omega
  simp [EventSet.activate_event, hmem, hroom]

/-- Success run of the `emit` iteration: when every remaining set can
accept the id, the iteration returns the accumulated sets extended with
the updated sets (id pending in each, owners preserved) and the
accumulated woken list extended with every owner in order. -/
theorem emitGo_ok (id : EventId) (sets : List EventSet)
    (h : ∀ es ∈ sets, id ∈ es.pending ∨ es.pending.length < es.capacity) :
    ∀ done woken, ∃ sets2,
      emitGo id done woken sets =
        Except.ok (done ++ sets2,
          woken ++ sets.map (fun es => es.target_tasklet)) ∧
      sets2.map (fun es => es.target_tasklet) =
        sets.map (fun es => es.target_tasklet) ∧
      ∀ es2 ∈ sets2, id ∈ es2.pending := by
  induction sets with
  | nil => intro done woken; exact ⟨[], by simp [emitGo], by simp, by simp⟩
  | cons es rest ih =>
    intro done woken
    obtain ⟨es2, hact, hpend, htgt, hcap⟩ :=
      activate_event_ok es id (h es (by simp))
    have hrest : ∀ e2 ∈ rest, id ∈ e2.pending ∨
        e2.pending.length < e2.capacity := by
      intro e2 he2; exact h e2 (by simp [he2])
    obtain ⟨sets2, hrun, hmap, hall⟩ := ih hrest (done ++ [es2])
      (woken ++ [es.target_tasklet])
    refine ⟨es2 :: sets2, ?_, ?_, ?_⟩
    · rw [emitGo, hact]
      simp [hrun]
    · simp [hmap, htgt]
    · intro e2 he2
      rcases List.mem_cons.mp he2 with h1 | h1
      · rw [h1]; exact hpend
      · exact hall e2 h1

/-- Failing run of the `emit` iteration: when some remaining set can
accept neither (id not pending, no room), the iteration stops with the
panic message of the source's `expect`. -/
theorem emitGo_fail (id : EventId) (sets : List EventSet)
    (h : ∃ es ∈ sets, id ∉ es.pending ∧ es.capacity ≤ es.pending.length) :
    ∀ done woken, emitGo id done woken sets =
      Except.error "Failed to activate an event" := by
  induction sets with
  | nil => simp at h
  | cons es rest ih =>
    intro done woken
    obtain ⟨bad, hmem, hnp, hfull⟩ := h
    rcases List.mem_cons.mp hmem with h1 | h1
    · rw [h1] at hnp hfull
      rw [emitGo, activate_event_fail es id hnp hfull]
    · by_cases hok : id ∈ es.pending ∨ es.pending.length < es.capacity
      · obtain ⟨es2, hact, _, _, _⟩ := activate_event_ok es id hok
        rw [emitGo, hact]
        exact ih ⟨bad, h1, hnp, hfull⟩ _ _
      · push_neg at hok
        rw [emitGo, activate_event_fail es id hok.1 (by omega)]

/-- C9 counterexample: emitting event 5 while its one subscribed set (full:
capacity 1, already holding event 1) cannot record it does not return the
runtime error to the caller — `emit` panics through
`expect("Failed to activate an event")`, aborting instead. -/
theorem event_emit_panics_on_full_set :
    Event.emit
        { id := 5,
          sets := [{ pending := [1], capacity := 1, target_tasklet := 3 }] } =
      EmitResult.panicked "Failed to activate an event" := rfl

/-- C9 amended: when every subscribed set can record the event (the bit is
already pending or there is room), `emit` marks the event pending in every
subscribed set and wakes every owning tasklet; but when some subscribed set
cannot, the runtime error is not returned to the caller — `emit` panics
(aborts) through the source's `expect`. -/
theorem event_emit_spec (e : Event) :
    ((∀ es ∈ e.sets, e.id ∈ es.pending ∨ es.pending.length < es.capacity) →
      ∃ sets2, Event.emit e =
          EmitResult.ok { e with sets := sets2 }
            (e.sets.map (fun es => es.target_tasklet)) ∧
        sets2.map (fun es => es.target_tasklet) =
          e.sets.map (fun es => es.target_tasklet) ∧
        ∀ es2 ∈ sets2, e.id ∈ es2.pending) ∧
    ((∃ es ∈ e.sets, e.id ∉ es.pending ∧ es.capacity ≤ es.pending.length) →
      Event.emit e = EmitResult.panicked "Failed to activate an event") := by
  constructor
  · intro h
    obtain ⟨sets2, hrun, hmap, hall⟩ := emitGo_ok e.id e.sets h [] []
    refine ⟨sets2, ?_, hmap, hall⟩
    simp only [Event.emit, hrun, List.nil_append]
  · intro h
    have := emitGo_fail e.id e.sets h [] []
    simp only [Event.emit, this]

/-- C9 witness: emitting event 5 into two non-full sets (owners 3 and 4)
completes normally, records the event as pending in both updated sets, and
wakes tasklets 3 and 4. -/
theorem event_emit_spec_witness :
    (∃ sets2, Event.emit
        { id := 5,
          sets := [{ pending := [1], capacity := 2, target_tasklet := 3 },
                   { pending := [], capacity := 1, target_tasklet := 4 }] } =
          EmitResult.ok
            { id := 5, sets := sets2 } [3, 4] ∧
        sets2.map (fun es => es.target_tasklet) = [3, 4] ∧
        ∀ es2 ∈ sets2, 5 ∈ es2.pending) := by
  have h := (event_emit_spec
    { id := 5,
      sets := [{ pending := [1], capacity := 2, target_tasklet := 3 },
               { pending := [], capacity := 1, target_tasklet := 4 }] }).1
    (by decide)
  obtain ⟨sets2, hrun, hmap, hall⟩ := h
  exact ⟨sets2, hrun, hmap, hall⟩

/-- Pop of the modelled heap yields an element exactly when the heap is
non-empty. -/
theorem selectMax_eq_none_iff (key : TaskletId → Nat) (l : List TaskletId) :
    Executor.selectMax key l = none ↔ l = [] := by
  cases l with
  | nil => simp [Executor.selectMax]
  | cons x xs =>
    simp only [iff_false, List.cons_ne_nil, ne_eq]
    intro h
    rw [Executor.selectMax] at h
    split at h
    · exact Option.noConfusion h
    · split at h
      · exact Option.noConfusion h
      · exact Option.noConfusion h

/-- Pop of the modelled heap removes exactly one occurrence of the popped
element: the original heap contents are a permutation of the popped element
together with the remaining contents. -/
theorem selectMax_perm (key : TaskletId → Nat) :
    ∀ (l : List TaskletId) (m : TaskletId) (rest : List TaskletId),
      Executor.selectMax key l = some (m, rest) → l.Perm (m :: rest) := by
  intro l
  induction l with
  | nil => intro m rest h; simp [Executor.selectMax] at h
  | cons x xs ih =>
    intro m rest h
    rw [Executor.selectMax] at h
    split at h
    · rename_i hs
      simp only [Option.some.injEq, Prod.mk.injEq] at h
      obtain ⟨h1, h2⟩ := h
      have hxs : xs = [] := (selectMax_eq_none_iff key xs).mp hs
      rw [← h1, ← h2, hxs]
    · rename_i m2 rest2 hs
      split at h
      · rename_i hk
        simp only [Option.some.injEq, Prod.mk.injEq] at h
        obtain ⟨h1, h2⟩ := h
        rw [← h1, ← h2]
        have hperm := ih m2 rest2 hs
        exact (hperm.cons x).trans (List.Perm.swap m2 x rest2)
      · rename_i hk
        simp only [Option.some.injEq, Prod.mk.injEq] at h
        obtain ⟨h1, h2⟩ := h
        rw [← h1, ← h2]

/-- Pop of the modelled heap returns a maximal element: every queued id has
a key no larger than the popped one. -/
theorem selectMax_is_max (key : TaskletId → Nat) :
    ∀ (l : List TaskletId) (m : TaskletId) (rest : List TaskletId),
      Executor.selectMax key l = some (m, rest) →
        ∀ j ∈ l, key j ≤ key m := by
  intro l
  induction l with
  | nil => intro m rest h; simp [Executor.selectMax] at h
  | cons x xs ih =>
    intro m rest h j hj
    rw [Executor.selectMax] at h
    split at h
    · rename_i hs
      simp only [Option.some.injEq, Prod.mk.injEq] at h
      obtain ⟨h1, _⟩ := h
      have hxs : xs = [] := (selectMax_eq_none_iff key xs).mp hs
      rw [← h1]
      rw [hxs] at hj
      rcases List.mem_cons.mp hj with h2 | h2
      · rw [h2]
      · simp at h2
    · rename_i m2 rest2 hs
      split at h
      · rename_i hk
        simp only [Option.some.injEq, Prod.mk.injEq] at h
        obtain ⟨h1, _⟩ := h
        rw [← h1]
        rcases List.mem_cons.mp hj with h2 | h2
        · rw [h2]; exact Nat.le_of_lt hk
        · exact ih m2 rest2 hs j h2
      · rename_i hk
        simp only [Option.some.injEq, Prod.mk.injEq] at h
        obtain ⟨h1, _⟩ := h
        rw [← h1]
        rcases List.mem_cons.mp hj with h2 | h2
        · rw [h2]
        · exact Nat.le_trans (ih m2 rest2 hs j h2) (Nat.le_of_not_lt hk)

/-- Registry updates do not touch the execution queue. -/
theorem updateTasklet_queue (s : ExecutorState P T C) (i : TaskletId)
    (f : SysTasklet P T C → SysTasklet P T C) :
    (Executor.updateTasklet s i f).tasklet_queue = s.tasklet_queue := by
  rw [Executor.updateTasklet]
  cases s.tasklets[i]? <;> rfl

/-- Registry updates do not touch the system time. -/
theorem updateTasklet_time (s : ExecutorState P T C) (i : TaskletId)
    (f : SysTasklet P T C → SysTasklet P T C) :
    (Executor.updateTasklet s i f).system_time = s.system_time := by
  rw [Executor.updateTasklet]
  cases s.tasklets[i]? <;> rfl

/-- Registry updates preserve the registry size (the tasklet count). -/
theorem updateTasklet_length (s : ExecutorState P T C) (i : TaskletId)
    (f : SysTasklet P T C → SysTasklet P T C) :
    (Executor.updateTasklet s i f).tasklets.length = s.tasklets.length := by
  rw [Executor.updateTasklet]
  cases s.tasklets[i]? with
  | none => rfl
  | some st => simp

/-- Registry update of entry `i` rewrites exactly that entry. -/
theorem updateTasklet_get_self (s : ExecutorState P T C) (i : TaskletId)
    (f : SysTasklet P T C → SysTasklet P T C) (st : SysTasklet P T C)
    (h : s.tasklets[i]? = some st) :
    (Executor.updateTasklet s i f).tasklets[i]? = some (f st) := by
  rw [Executor.updateTasklet, h]
  simp only
  exact List.getElem?_set_eq_of_lt (f st) (List.getElem?_eq_some.mp h).1

/-- Registry update of entry `i` leaves every other entry unchanged. -/
theorem updateTasklet_get_ne (s : ExecutorState P T C) (i j : TaskletId)
    (f : SysTasklet P T C → SysTasklet P T C) (h : i ≠ j) :
    (Executor.updateTasklet s i f).tasklets[j]? = s.tasklets[j]? := by
  rw [Executor.updateTasklet]
  cases hh : s.tasklets[i]? with
  | none => rfl
  | some st =>
    simp only
    exact List.getElem?_set_ne h

/-- Reading a present registry entry's status through the pointer. -/
theorem tasklet_status_some (s : ExecutorState P T C) (i : TaskletId)
    (st : SysTasklet P T C) (h : s.tasklets[i]? = some st) :
    Executor.tasklet_status s i = some st.tasklet.status := by
  rw [Executor.tasklet_status, h]
  rfl

/-- Status writes do not touch the queue. -/
theorem set_status_queue (s : ExecutorState P T C) (i : TaskletId)
    (w : TaskStatus) :
    (Executor.set_status s i w).tasklet_queue = s.tasklet_queue :=
  updateTasklet_queue s i _

/-- Status writes do not touch the system time. -/
theorem set_status_time (s : ExecutorState P T C) (i : TaskletId)
    (w : TaskStatus) :
    (Executor.set_status s i w).system_time = s.system_time :=
  updateTasklet_time s i _

/-- Status writes preserve the registry size. -/
theorem set_status_length (s : ExecutorState P T C) (i : TaskletId)
    (w : TaskStatus) :
    (Executor.set_status s i w).tasklets.length = s.tasklets.length :=
  updateTasklet_length s i _

/-- Status writes update exactly the addressed entry's status field. -/
theorem set_status_get_self (s : ExecutorState P T C) (i : TaskletId)
    (w : TaskStatus) (st : SysTasklet P T C) (h : s.tasklets[i]? = some st) :
    (Executor.set_status s i w).tasklets[i]? =
      some { st with tasklet := { st.tasklet with status := w } } :=
  updateTasklet_get_self s i _ st h

/-- Status writes leave other entries unchanged. -/
theorem set_status_get_ne (s : ExecutorState P T C) (i j : TaskletId)
    (w : TaskStatus) (h : i ≠ j) :
    (Executor.set_status s i w).tasklets[j]? = s.tasklets[j]? :=
  updateTasklet_get_ne s i j _ h

/-- C2: `wake` (the executor's `schedule_tasklet`) pushes the tasklet and
marks it `Waiting` exactly when its status is `Sleeping`: on a `Waiting` or
`Working` tasklet the call changes nothing (returning `Ok(false)`); on a
`Sleeping` tasklet (with the heap below capacity) it appends the tasklet to
the queue once and sets its status to `Waiting`; hence two wakes without an
intervening execution leave the tasklet queued exactly once. -/
theorem executor_wake_spec (s : ExecutorState P T C) (i : TaskletId) :
    ((Executor.tasklet_status s i = some TaskStatus.Waiting ∨
      Executor.tasklet_status s i = some TaskStatus.Working) →
        Executor.schedule_tasklet s i = (Except.ok false, s)) ∧
    (Executor.tasklet_status s i = some TaskStatus.Sleeping →
     s.tasklet_queue.length < s.tasklets.length →
        Executor.schedule_tasklet s i =
          (Except.ok true,
            { Executor.set_status s i TaskStatus.Waiting with
                tasklet_queue := s.tasklet_queue ++ [i] }) ∧
        Executor.tasklet_status (Executor.schedule_tasklet s i).2 i =
          some TaskStatus.Waiting) ∧
    (Executor.tasklet_status s i = some TaskStatus.Sleeping →
     s.tasklet_queue.length < s.tasklets.length →
     s.tasklet_queue.count i = 0 →
        (Executor.schedule_tasklet
          (Executor.schedule_tasklet s i).2 i).2.tasklet_queue.count i = 1) := by
  have hpart1 : (Executor.tasklet_status s i = some TaskStatus.Waiting ∨
      Executor.tasklet_status s i = some TaskStatus.Working) →
        Executor.schedule_tasklet s i = (Except.ok false, s) := by
    intro h
    rw [Executor.schedule_tasklet, if_neg]
    rcases h with h | h <;> rw [h] <;> simp
  have hpart2 : Executor.tasklet_status s i = some TaskStatus.Sleeping →
      s.tasklet_queue.length < s.tasklets.length →
        Executor.schedule_tasklet s i =
          (Except.ok true,
            { Executor.set_status s i TaskStatus.Waiting with
                tasklet_queue := s.tasklet_queue ++ [i] }) ∧
        Executor.tasklet_status (Executor.schedule_tasklet s i).2 i =
          some TaskStatus.Waiting := by
    intro h1 h2
    obtain ⟨st, hget⟩ : ∃ st, s.tasklets[i]? = some st := by
      rw [Executor.tasklet_status] at h1
      cases hh : s.tasklets[i]? with
      | none => rw [hh] at h1; simp at h1
      | some st => exact ⟨st, rfl⟩
    have hadd : Executor.add_tasklet_to_queue s i =
        (Except.ok (),
          { Executor.set_status s i TaskStatus.Waiting with
              tasklet_queue := s.tasklet_queue ++ [i] }) := by
      rw [Executor.add_tasklet_to_queue]
      simp only [set_status_queue, set_status_length]
      rw [if_pos h2]
    have hsched : Executor.schedule_tasklet s i =
        (Except.ok true,
          { Executor.set_status s i TaskStatus.Waiting with
              tasklet_queue := s.tasklet_queue ++ [i] }) := by
      rw [Executor.schedule_tasklet, if_pos h1, hadd]
    refine ⟨hsched, ?_⟩
    rw [hsched]
    have hw : ({ Executor.set_status s i TaskStatus.Waiting with
        tasklet_queue := s.tasklet_queue ++ [i] } :
          ExecutorState P T C).tasklets[i]? =
        some { st with tasklet := { st.tasklet with
            status := TaskStatus.Waiting } } := by
      have := set_status_get_self s i TaskStatus.Waiting st hget
      exact this
    rw [Executor.tasklet_status, hw]
    rfl
  refine ⟨hpart1, hpart2, ?_⟩
  intro h1 h2 h3
  obtain ⟨hsched, hstat⟩ := hpart2 h1 h2
  have hnosecond : Executor.schedule_tasklet
      (Executor.schedule_tasklet s i).2 i =
        (Except.ok false, (Executor.schedule_tasklet s i).2) := by
    rw [Executor.schedule_tasklet, if_neg]
    rw [hstat]
    simp
  rw [hnosecond]
  rw [hsched]
  simp only [set_status_queue]
  simp [List.count_append, h3]

/-- Concrete one-tasklet executor state (tasklet 0 sleeping, queue empty)
used to witness the wake claim. -/
def wakeState : ExecutorState (MessageQueue Nat 2) Nat Nat where
  tasklets :=
    [{ tasklet :=
        { name := "a", status := TaskStatus.Sleeping,
          last_execution_time := 0, step_fn := fun v c => v + c,
          context := 0, data_provider := none },
       priority := 1 }]
  tasklet_queue := []
  system_time := 0

/-- C2 witness: waking the concrete sleeping tasklet twice leaves it in
the executor queue exactly once. -/
theorem executor_wake_spec_witness :
    (Executor.schedule_tasklet
      (Executor.schedule_tasklet wakeState 0).2 0).2.tasklet_queue.count 0
      = 1 := by
  have h := (executor_wake_spec wakeState 0).2.2
  exact h rfl (by decide) rfl

/-- C8: pushing a tasklet into a full executor heap (holding as many
entries as the system has tasklets, the heap capacity) fails with the
runtime error `ExecutorTaskletQueueFull`; and under the reachable-state
invariant — queue entries distinct, within the registry, and the pushed
tasklet a registered one not already queued — the full-heap branch is
unreachable: the push succeeds. -/
theorem executor_queue_full_spec (s : ExecutorState P T C) (i : TaskletId) :
    (s.tasklet_queue.length = s.tasklets.length →
      Executor.add_tasklet_to_queue s i =
        (Except.error RuntimeError.ExecutorTaskletQueueFull,
          Executor.set_status s i TaskStatus.Waiting)) ∧
    (s.tasklet_queue.Nodup →
     (∀ j ∈ s.tasklet_queue, j < s.tasklets.length) →
     i < s.tasklets.length → i ∉ s.tasklet_queue →
      (Executor.add_tasklet_to_queue s i).1 = Except.ok ()) := by
  constructor
  · intro h
    rw [Executor.add_tasklet_to_queue]
    simp only [set_status_queue, set_status_length]
    have hcond : ¬(s.tasklet_queue.length < s.tasklets.length) := by omega
    rw [if_neg hcond]
  · intro hnd hmem hi hni
    have hsub : s.tasklet_queue.toFinset ⊆
        (Finset.range s.tasklets.length).erase i := by
      intro j hj
      rw [List.mem_toFinset] at hj
      refine Finset.mem_erase.mpr ⟨?_, Finset.mem_range.mpr (hmem j hj)⟩
      intro hcontra
      rw [hcontra] at hj
      exact hni hj
    have hcard := Finset.card_le_card hsub
    rw [List.toFinset_card_of_nodup hnd] at hcard
    rw [Finset.card_erase_of_mem (Finset.mem_range.mpr hi),
      Finset.card_range] at hcard
    have hn0 : 0 < s.tasklets.length := Nat.zero_lt_of_lt hi
    have hlt : s.tasklet_queue.length < s.tasklets.length :=
      Nat.lt_of_le_of_lt hcard (Nat.sub_lt hn0 Nat.one_pos)
    rw [Executor.add_tasklet_to_queue]
    simp only [set_status_queue, set_status_length]
    rw [if_pos hlt]

/-- C8 witness: in a one-tasklet system, pushing onto a heap already
holding one entry fails with `ExecutorTaskletQueueFull`, while pushing the
not-yet-queued tasklet onto the empty heap succeeds. -/
theorem executor_queue_full_spec_witness :
    Executor.add_tasklet_to_queue
        { tasklets := wakeState.tasklets, tasklet_queue := [0],
          system_time := 0 } 0 =
      (Except.error RuntimeError.ExecutorTaskletQueueFull,
        Executor.set_status
          { tasklets := wakeState.tasklets, tasklet_queue := [0],
            system_time := 0 } 0 TaskStatus.Waiting) ∧
    (Executor.add_tasklet_to_queue wakeState 0).1 = Except.ok () := by
  constructor
  · exact (executor_queue_full_spec
      { tasklets := wakeState.tasklets, tasklet_queue := [0],
        system_time := 0 } 0).1 (by decide)
  · exact (executor_queue_full_spec wakeState 0).2 (by decide)
      (by decide) (by decide) (by decide)

/-- Execution of a tasklet through the pointer does not touch the queue. -/
theorem execute_tasklet_queue (dp : DataProvider P T)
    (s : ExecutorState P T C) (i : TaskletId) :
    (Executor.execute_tasklet dp s i).tasklet_queue = s.tasklet_queue :=
  updateTasklet_queue s i _

/-- Execution of a tasklet does not touch the system time. -/
theorem execute_tasklet_time (dp : DataProvider P T)
    (s : ExecutorState P T C) (i : TaskletId) :
    (Executor.execute_tasklet dp s i).system_time = s.system_time :=
  updateTasklet_time s i _

/-- Execution of a tasklet preserves the registry size. -/
theorem execute_tasklet_length (dp : DataProvider P T)
    (s : ExecutorState P T C) (i : TaskletId) :
    (Executor.execute_tasklet dp s i).tasklets.length = s.tasklets.length :=
  updateTasklet_length s i _

/-- Execution of tasklet `i` rewrites exactly entry `i` with the executed
tasklet. -/
theorem execute_tasklet_get_self (dp : DataProvider P T)
    (s : ExecutorState P T C) (i : TaskletId) (st : SysTasklet P T C)
    (h : s.tasklets[i]? = some st) :
    (Executor.execute_tasklet dp s i).tasklets[i]? =
      some { st with tasklet := st.tasklet.execute dp } :=
  updateTasklet_get_self s i _ st h

/-- Execution of tasklet `i` leaves other entries unchanged. -/
theorem execute_tasklet_get_ne (dp : DataProvider P T)
    (s : ExecutorState P T C) (i j : TaskletId) (h : i ≠ j) :
    (Executor.execute_tasklet dp s i).tasklets[j]? = s.tasklets[j]? :=
  updateTasklet_get_ne s i j _ h

/-- Recording the last-execution instant does not touch the queue. -/
theorem set_last_exec_queue (s : ExecutorState P T C) (i : TaskletId)
    (time : Nat) :
    (Executor.set_last_exec s i time).tasklet_queue = s.tasklet_queue :=
  updateTasklet_queue s i _

/-- Recording the last-execution instant does not touch the system time. -/
theorem set_last_exec_time (s : ExecutorState P T C) (i : TaskletId)
    (time : Nat) :
    (Executor.set_last_exec s i time).system_time = s.system_time :=
  updateTasklet_time s i _

/-- Recording the last-execution instant preserves the registry size. -/
theorem set_last_exec_length (s : ExecutorState P T C) (i : TaskletId)
    (time : Nat) :
    (Executor.set_last_exec s i time).tasklets.length = s.tasklets.length :=
  updateTasklet_length s i _

/-- Recording the last-execution instant rewrites exactly entry `i`. -/
theorem set_last_exec_get_self (s : ExecutorState P T C) (i : TaskletId)
    (time : Nat) (st : SysTasklet P T C) (h : s.tasklets[i]? = some st) :
    (Executor.set_last_exec s i time).tasklets[i]? =
      some { st with tasklet :=
        { st.tasklet with last_execution_time := time } } :=
  updateTasklet_get_self s i _ st h

/-- Recording the last-execution instant leaves other entries unchanged. -/
theorem set_last_exec_get_ne (s : ExecutorState P T C) (i j : TaskletId)
    (time : Nat) (h : i ≠ j) :
    (Executor.set_last_exec s i time).tasklets[j]? = s.tasklets[j]? :=
  updateTasklet_get_ne s i j _ h

/-- Execution commutes with status writes: `execute` never reads or
writes the status field. -/
theorem execute_set_status (dp : DataProvider P T) (t : Tasklet P T C)
    (w : TaskStatus) :
    Tasklet.execute dp (Tasklet.set_status t w) =
      Tasklet.set_status (Tasklet.execute dp t) w := by
  cases hp : t.data_provider with
  | none => simp [Tasklet.execute, Tasklet.set_status, hp]
  | some p =>
    rcases hg : dp.get_data p with ⟨v, p2⟩
    cases v <;> simp [Tasklet.execute, Tasklet.set_status, hp, hg]

/-- Work detection ignores the status and last-execution fields: it reads
only the bound data provider. -/
theorem has_work_ignores_status_time (dp : DataProvider P T)
    (t : Tasklet P T C) (w : TaskStatus) (n : Nat) :
    Tasklet.has_work dp
        { t with status := w, last_execution_time := n } =
      Tasklet.has_work dp t := rfl

/-- C1: one iteration of the executor main loop pops a highest-priority
queued tasklet, marks it `Working`, runs its `execute` operation, records
the current system time as its last-execution instant, and then either
pushes it back into the queue with status `Waiting` (when `has_work()` is
still true) or marks it `Sleeping` (when it is not); every other registry
entry and the system time are untouched. -/
theorem executor_execute_next_spec (dp : DataProvider P T)
    (s : ExecutorState P T C) (i : TaskletId) (rest : List TaskletId)
    (st : SysTasklet P T C)
    (hsel : Executor.selectMax (Executor.prio s) s.tasklet_queue =
      some (i, rest))
    (hcap : s.tasklet_queue.length ≤ s.tasklets.length)
    (hst : s.tasklets[i]? = some st) :
    (∀ j ∈ s.tasklet_queue, Executor.prio s j ≤ Executor.prio s i) ∧
    s.tasklet_queue.Perm (i :: rest) ∧
    (∃ s5 : ExecutorState P T C,
      Executor.execute_next_tasklet dp s = (Except.ok true, s5) ∧
      s5.system_time = s.system_time ∧
      s5.tasklet_queue =
        (if Tasklet.has_work dp (Tasklet.execute dp st.tasklet)
         then rest ++ [i] else rest) ∧
      s5.tasklets[i]? = some
        { st with tasklet :=
            { Tasklet.execute dp st.tasklet with
                status :=
                  (if Tasklet.has_work dp (Tasklet.execute dp st.tasklet)
                   then TaskStatus.Waiting else TaskStatus.Sleeping),
                last_execution_time := s.system_time } } ∧
      (∀ j, j ≠ i → s5.tasklets[j]? = s.tasklets[j]?)) := by
  have hperm := selectMax_perm (Executor.prio s) s.tasklet_queue i rest hsel
  refine ⟨selectMax_is_max (Executor.prio s) s.tasklet_queue i rest hsel,
    hperm, ?_⟩
  have hlen : s.tasklet_queue.length = rest.length + 1 := by
    have h0 := hperm.length_eq
    simpa using h0
  have hrestlen : rest.length < s.tasklets.length := by omega
  have hpop : Executor.get_tasklet_for_execution s =
      (some i, { s with tasklet_queue := rest }) := by
    simp only [Executor.get_tasklet_for_execution, hsel]
  have hst1 : ({ s with tasklet_queue := rest } :
      ExecutorState P T C).tasklets[i]? = some st := hst
  have hunfold : Executor.execute_next_tasklet dp s =
      (match Executor.reschedule_tasklet dp
          (Executor.set_last_exec
            (Executor.execute_tasklet dp
              (Executor.set_status { s with tasklet_queue := rest } i
                TaskStatus.Working) i) i
            (Executor.execute_tasklet dp
              (Executor.set_status { s with tasklet_queue := rest } i
                TaskStatus.Working) i).system_time) i with
       | (Except.ok true, s5) => (Except.ok true, s5)
       | (Except.ok false, s5) =>
          (Except.ok true, Executor.set_status s5 i TaskStatus.Sleeping)
       | (Except.error e, s5) => (Except.error e, s5)) := by
    rw [Executor.execute_next_tasklet, hpop]
    rfl
  have hst2 : (Executor.set_status { s with tasklet_queue := rest } i
      TaskStatus.Working).tasklets[i]? =
      some { st with tasklet := { st.tasklet with
          status := TaskStatus.Working } } :=
    set_status_get_self { s with tasklet_queue := rest } i
      TaskStatus.Working st hst1
  have hst3 : (Executor.execute_tasklet dp
      (Executor.set_status { s with tasklet_queue := rest } i
        TaskStatus.Working) i).tasklets[i]? =
      some { st with tasklet :=
        { Tasklet.execute dp st.tasklet with
            status := TaskStatus.Working } } := by
    have h0 := execute_tasklet_get_self dp
      (Executor.set_status { s with tasklet_queue := rest } i
        TaskStatus.Working) i
      { st with tasklet := { st.tasklet with status := TaskStatus.Working } }
      hst2
    have h1 : Tasklet.execute dp
        ({ st.tasklet with status := TaskStatus.Working } : Tasklet P T C) =
        { Tasklet.execute dp st.tasklet with status := TaskStatus.Working } :=
      execute_set_status dp st.tasklet TaskStatus.Working
    rw [h0]
    exact congrArg
      (fun t => some ({ tasklet := t, priority := st.priority } :
        SysTasklet P T C)) h1
  have ht2 : (Executor.set_status { s with tasklet_queue := rest } i
        TaskStatus.Working).system_time = s.system_time :=
    set_status_time { s with tasklet_queue := rest } i TaskStatus.Working
  have ht3 : (Executor.execute_tasklet dp
      (Executor.set_status { s with tasklet_queue := rest } i
        TaskStatus.Working) i).system_time = s.system_time :=
    (execute_tasklet_time dp (Executor.set_status { s with tasklet_queue := rest } i
        TaskStatus.Working) i).trans ht2
  rw [ht3] at hunfold
  have hq2 : (Executor.set_status { s with tasklet_queue := rest } i
        TaskStatus.Working).tasklet_queue = rest :=
    set_status_queue { s with tasklet_queue := rest } i TaskStatus.Working
  have hq3 : (Executor.execute_tasklet dp
      (Executor.set_status { s with tasklet_queue := rest } i
        TaskStatus.Working) i).tasklet_queue = rest :=
    (execute_tasklet_queue dp (Executor.set_status { s with tasklet_queue := rest } i
        TaskStatus.Working) i).trans hq2
  have hq4 : (Executor.set_last_exec
      (Executor.execute_tasklet dp
      (Executor.set_status { s with tasklet_queue := rest } i
        TaskStatus.Working) i) i s.system_time).tasklet_queue = rest :=
    (set_last_exec_queue (Executor.execute_tasklet dp
      (Executor.set_status { s with tasklet_queue := rest } i
        TaskStatus.Working) i) i s.system_time).trans hq3
  have ht4 : (Executor.set_last_exec
      (Executor.execute_tasklet dp
      (Executor.set_status { s with tasklet_queue := rest } i
        TaskStatus.Working) i) i s.system_time).system_time = s.system_time :=
    (set_last_exec_time (Executor.execute_tasklet dp
      (Executor.set_status { s with tasklet_queue := rest } i
        TaskStatus.Working) i) i s.system_time).trans ht3
  have hl2 : (Executor.set_status { s with tasklet_queue := rest } i
        TaskStatus.Working).tasklets.length = s.tasklets.length :=
    set_status_length { s with tasklet_queue := rest } i TaskStatus.Working
  have hl3 : (Executor.execute_tasklet dp
      (Executor.set_status { s with tasklet_queue := rest } i
        TaskStatus.Working) i).tasklets.length = s.tasklets.length :=
    (execute_tasklet_length dp (Executor.set_status { s with tasklet_queue := rest } i
        TaskStatus.Working) i).trans hl2
  have hl4 : (Executor.set_last_exec
      (Executor.execute_tasklet dp
      (Executor.set_status { s with tasklet_queue := rest } i
        TaskStatus.Working) i) i s.system_time).tasklets.length = s.tasklets.length :=
    (set_last_exec_length (Executor.execute_tasklet dp
      (Executor.set_status { s with tasklet_queue := rest } i
        TaskStatus.Working) i) i s.system_time).trans hl3
  have hst4 : (Executor.set_last_exec
      (Executor.execute_tasklet dp
      (Executor.set_status { s with tasklet_queue := rest } i
        TaskStatus.Working) i) i s.system_time).tasklets[i]? = some
      { st with tasklet := { Tasklet.execute dp st.tasklet with
      status := TaskStatus.Working,
      last_execution_time := s.system_time } } :=
    set_last_exec_get_self (Executor.execute_tasklet dp
      (Executor.set_status { s with tasklet_queue := rest } i
        TaskStatus.Working) i) i s.system_time
      { st with tasklet := { Tasklet.execute dp st.tasklet with
          status := TaskStatus.Working } } hst3
  have hhw : Executor.tasklet_has_work dp (Executor.set_last_exec
      (Executor.execute_tasklet dp
      (Executor.set_status { s with tasklet_queue := rest } i
        TaskStatus.Working) i) i s.system_time) i =
      Tasklet.has_work dp (Tasklet.execute dp st.tasklet) := by
    simp only [Executor.tasklet_has_work, hst4]
    rfl
  have hgetne : ∀ j, j ≠ i → (Executor.set_last_exec
      (Executor.execute_tasklet dp
      (Executor.set_status { s with tasklet_queue := rest } i
        TaskStatus.Working) i) i s.system_time).tasklets[j]? = s.tasklets[j]? := by
    intro j hj
    have hne : i ≠ j := Ne.symm hj
    exact ((set_last_exec_get_ne (Executor.execute_tasklet dp
      (Executor.set_status { s with tasklet_queue := rest } i
        TaskStatus.Working) i) i j s.system_time hne).trans
      ((execute_tasklet_get_ne dp (Executor.set_status { s with tasklet_queue := rest } i
        TaskStatus.Working) i j hne).trans
        (set_status_get_ne { s with tasklet_queue := rest } i j TaskStatus.Working hne)))
  have hltq : (Executor.set_last_exec
      (Executor.execute_tasklet dp
      (Executor.set_status { s with tasklet_queue := rest } i
        TaskStatus.Working) i) i s.system_time).tasklet_queue.length < (Executor.set_last_exec
      (Executor.execute_tasklet dp
      (Executor.set_status { s with tasklet_queue := rest } i
        TaskStatus.Working) i) i s.system_time).tasklets.length := by
    rw [hq4, hl4]
    exact hrestlen
  by_cases hw : Tasklet.has_work dp (Tasklet.execute dp st.tasklet) = true
  · have hadd : Executor.add_tasklet_to_queue (Executor.set_last_exec
      (Executor.execute_tasklet dp
      (Executor.set_status { s with tasklet_queue := rest } i
        TaskStatus.Working) i) i s.system_time) i =
        (Except.ok (),
          { Executor.set_status (Executor.set_last_exec
      (Executor.execute_tasklet dp
      (Executor.set_status { s with tasklet_queue := rest } i
        TaskStatus.Working) i) i s.system_time) i TaskStatus.Waiting with
              tasklet_queue := (Executor.set_last_exec
      (Executor.execute_tasklet dp
      (Executor.set_status { s with tasklet_queue := rest } i
        TaskStatus.Working) i) i s.system_time).tasklet_queue ++ [i] }) := by
      rw [Executor.add_tasklet_to_queue]
      simp only [set_status_queue, set_status_length]
      rw [if_pos hltq]
    have hres : Executor.reschedule_tasklet dp (Executor.set_last_exec
      (Executor.execute_tasklet dp
      (Executor.set_status { s with tasklet_queue := rest } i
        TaskStatus.Working) i) i s.system_time) i =
        (Except.ok true,
          { Executor.set_status (Executor.set_last_exec
      (Executor.execute_tasklet dp
      (Executor.set_status { s with tasklet_queue := rest } i
        TaskStatus.Working) i) i s.system_time) i TaskStatus.Waiting with
              tasklet_queue := (Executor.set_last_exec
      (Executor.execute_tasklet dp
      (Executor.set_status { s with tasklet_queue := rest } i
        TaskStatus.Working) i) i s.system_time).tasklet_queue ++ [i] }) := by
      rw [Executor.reschedule_tasklet, hhw]
      rw [if_pos hw, hadd]
    have hmain : Executor.execute_next_tasklet dp s =
        (Except.ok true,
          { Executor.set_status (Executor.set_last_exec
      (Executor.execute_tasklet dp
      (Executor.set_status { s with tasklet_queue := rest } i
        TaskStatus.Working) i) i s.system_time) i TaskStatus.Waiting with
              tasklet_queue := (Executor.set_last_exec
      (Executor.execute_tasklet dp
      (Executor.set_status { s with tasklet_queue := rest } i
        TaskStatus.Working) i) i s.system_time).tasklet_queue ++ [i] }) := by
      rw [hunfold, hres]
    refine ⟨_, hmain, ?_, ?_, ?_, ?_⟩
    · exact (set_status_time (Executor.set_last_exec
      (Executor.execute_tasklet dp
      (Executor.set_status { s with tasklet_queue := rest } i
        TaskStatus.Working) i) i s.system_time) i TaskStatus.Waiting).trans ht4
    · rw [if_pos hw]
      show (Executor.set_last_exec
      (Executor.execute_tasklet dp
      (Executor.set_status { s with tasklet_queue := rest } i
        TaskStatus.Working) i) i s.system_time).tasklet_queue ++ [i] = rest ++ [i]
      rw [hq4]
    · rw [if_pos hw]
      exact set_status_get_self (Executor.set_last_exec
      (Executor.execute_tasklet dp
      (Executor.set_status { s with tasklet_queue := rest } i
        TaskStatus.Working) i) i s.system_time) i TaskStatus.Waiting
        { st with tasklet := { Tasklet.execute dp st.tasklet with
      status := TaskStatus.Working,
      last_execution_time := s.system_time } } hst4
    · intro j hj
      exact (set_status_get_ne (Executor.set_last_exec
      (Executor.execute_tasklet dp
      (Executor.set_status { s with tasklet_queue := rest } i
        TaskStatus.Working) i) i s.system_time) i j TaskStatus.Waiting
        (Ne.symm hj)).trans (hgetne j hj)
  · have hres : Executor.reschedule_tasklet dp (Executor.set_last_exec
      (Executor.execute_tasklet dp
      (Executor.set_status { s with tasklet_queue := rest } i
        TaskStatus.Working) i) i s.system_time) i =
        (Except.ok false, (Executor.set_last_exec
      (Executor.execute_tasklet dp
      (Executor.set_status { s with tasklet_queue := rest } i
        TaskStatus.Working) i) i s.system_time)) := by
      rw [Executor.reschedule_tasklet, hhw]
      rw [if_neg hw]
    have hmain : Executor.execute_next_tasklet dp s =
        (Except.ok true,
          Executor.set_status (Executor.set_last_exec
      (Executor.execute_tasklet dp
      (Executor.set_status { s with tasklet_queue := rest } i
        TaskStatus.Working) i) i s.system_time) i TaskStatus.Sleeping) := by
      rw [hunfold, hres]
    refine ⟨_, hmain, ?_, ?_, ?_, ?_⟩
    · exact (set_status_time (Executor.set_last_exec
      (Executor.execute_tasklet dp
      (Executor.set_status { s with tasklet_queue := rest } i
        TaskStatus.Working) i) i s.system_time) i TaskStatus.Sleeping).trans ht4
    · rw [if_neg hw]
      exact (set_status_queue (Executor.set_last_exec
      (Executor.execute_tasklet dp
      (Executor.set_status { s with tasklet_queue := rest } i
        TaskStatus.Working) i) i s.system_time) i TaskStatus.Sleeping).trans hq4
    · rw [if_neg hw]
      exact set_status_get_self (Executor.set_last_exec
      (Executor.execute_tasklet dp
      (Executor.set_status { s with tasklet_queue := rest } i
        TaskStatus.Working) i) i s.system_time) i TaskStatus.Sleeping
        { st with tasklet := { Tasklet.execute dp st.tasklet with
      status := TaskStatus.Working,
      last_execution_time := s.system_time } } hst4
    · intro j hj
      exact (set_status_get_ne (Executor.set_last_exec
      (Executor.execute_tasklet dp
      (Executor.set_status { s with tasklet_queue := rest } i
        TaskStatus.Working) i) i s.system_time) i j TaskStatus.Sleeping
        (Ne.symm hj)).trans (hgetne j hj)


/-- Concrete registry entry for the main-loop witness: a low-priority
tasklet (priority 1) whose queue provider is empty. -/
def execEntry0 : SysTasklet (MessageQueue Nat 4) Nat (List Nat) where
  tasklet :=
    { name := "low", status := TaskStatus.Waiting, last_execution_time := 0,
      step_fn := fun v c => c ++ [v], context := [],
      data_provider :=
        some { data_queue := { elems := [] }, registered_tasklets := [] } }
  priority := 1

/-- Concrete registry entry for the main-loop witness: a high-priority
tasklet (priority 5) whose queue provider holds the values 20 and 30. -/
def execEntry1 : SysTasklet (MessageQueue Nat 4) Nat (List Nat) where
  tasklet :=
    { name := "high", status := TaskStatus.Waiting, last_execution_time := 0,
      step_fn := fun v c => c ++ [v], context := [],
      data_provider :=
        some { data_queue := { elems := [20, 30] }, registered_tasklets := [] } }
  priority := 5

/-- Concrete executor state for the main-loop witness: both tasklets
queued, system time 99. -/
def execState : ExecutorState (MessageQueue Nat 4) Nat (List Nat) where
  tasklets := [execEntry0, execEntry1]
  tasklet_queue := [0, 1]
  system_time := 99

/-- C1 witness: on the concrete two-tasklet state the loop executes the
high-priority tasklet (id 1): every queued id has priority at most its
priority 5, the pop removes exactly it, and the iteration produces the
state with its step executed, its last-execution instant set to 99, and —
since its queue still holds data — the tasklet re-queued. -/
theorem executor_execute_next_spec_witness :
    (∀ j ∈ execState.tasklet_queue,
      Executor.prio execState j ≤ Executor.prio execState 1) ∧
    execState.tasklet_queue.Perm (1 :: [0]) ∧
    (∃ s5 : ExecutorState (MessageQueue Nat 4) Nat (List Nat),
      Executor.execute_next_tasklet (messageQueueProvider Nat 4) execState =
        (Except.ok true, s5) ∧
      s5.system_time = execState.system_time ∧
      s5.tasklet_queue =
        (if Tasklet.has_work (messageQueueProvider Nat 4)
            (Tasklet.execute (messageQueueProvider Nat 4) execEntry1.tasklet)
         then [0] ++ [1] else [0]) ∧
      s5.tasklets[1]? = some
        { execEntry1 with tasklet :=
            { Tasklet.execute (messageQueueProvider Nat 4)
                execEntry1.tasklet with
                status :=
                  (if Tasklet.has_work (messageQueueProvider Nat 4)
                      (Tasklet.execute (messageQueueProvider Nat 4)
                        execEntry1.tasklet)
                   then TaskStatus.Waiting else TaskStatus.Sleeping),
                last_execution_time := execState.system_time } } ∧
      (∀ j, j ≠ 1 → s5.tasklets[j]? = execState.tasklets[j]?)) :=
  executor_execute_next_spec (messageQueueProvider Nat 4) execState 1 [0]
    execEntry1 rfl (by decide) rfl
